import Mathlib

/-!
Shallow embedding of `kats/transformers/t2v/t2vpreprocessing.py`
(`T2VPreprocessing`): construction, label validation, windowing,
normalization, label separation and reshaping of univariate time series.

Numeric values of a series are modelled as rationals.  Python scalar
labels are either `int`/`np.int64` (modelled `Label.lint`) or floats
(modelled `Label.lfloat`); the label entry of the produced record can be
a provided scalar label, a tail slice of a series (a numpy array), or
the placeholder `-1` produced in dummy mode.  Python exceptions raised
by `transform` / `__init__` are modelled as `Except` errors:
`ValueError` raised by the explicit sanity checks becomes
`.validation msg`, the `ValueError` raised by `np.reshape` on a length
mismatch becomes `.shape`, `self.data[0]` on an empty list becomes
`.indexError`, `np.max([])` becomes `.numpyEmptyMax`, and slicing with a
non-integer index becomes `.typeError`.
-/

/-- A scalar label passed by the caller: a Python `int`/`np.int64`
or a float. -/
inductive Label where
  | lint : Int → Label
  | lfloat : Rat → Label
deriving DecidableEq, Repr

/-- Numeric value of a scalar label, as used by `np.max(label)`. -/
def Label.val : Label → Rat
  | .lint n => (n : Rat)
  | .lfloat q => q

/-- The check `type(label) == int or type(label) == np.int64` performed by
`transform` in classification mode. -/
def Label.isInt : Label → Bool
  | .lint _ => true
  | .lfloat _ => false

/-- An entry of the `label` list assembled by `transform`: either a
scalar label (provided by the caller, or the dummy `-1`), or a tail
slice `ts.value.values[end:]` of a series. -/
inductive OutLabel where
  | scalar : Label → OutLabel
  | series : List Rat → OutLabel
deriving DecidableEq, Repr

/-- A time series; only its ordered numeric values are relevant
(`ts.value.values`), and `len(ts)` is the number of values. -/
structure TimeSeriesData where
  value : List Rat
deriving DecidableEq, Repr

instance : Inhabited TimeSeriesData := ⟨⟨[]⟩⟩

/-- The fields of the `T2VParam` named tuple used by the preprocessor. -/
structure T2VParam where
  mode : String
  normalizer : Option (List Rat → List Rat)
  training_output_size : Int

/-- Python exceptions that the embedded code can raise. -/
inductive T2VError where
  | validation : String → T2VError
  | shape : T2VError
  | indexError : T2VError
  | numpyEmptyMax : T2VError
  | typeError : T2VError
deriving DecidableEq, Repr

def msgNoLabel : String :=
  "Labels should be provided for training in classification fashion."

def msgFloatLabel : String :=
  "Float cannot be used as label for classification training."

def msgMismatch : String :=
  "Number of labels and time series data mismatch."

/-- The `T2VPreprocessed` named tuple returned by `transform`. -/
structure T2VPreprocessed where
  seq : List (List (List Rat))
  label : List OutLabel
  output_size : Rat
  window : Rat
  batched : Bool
deriving DecidableEq, Repr

/-- Instance state of the `T2VPreprocessing` class.  `window` is `none`
until `transform` assigns it. -/
structure T2VPreprocessing where
  data : List TimeSeriesData
  param : T2VParam
  dummy_label : Bool
  label : Option (List Label)
  mode : String
  output_size : Rat
  window : Option Rat

/-- `np.max` on a list of numbers: fails (`None` here) on an empty
list, otherwise the maximum. -/
def npMax : List Rat → Option Rat
  | [] => none
  | x :: xs => some (xs.foldl max x)

/-- Python slice `xs[:e]` with a possibly negative integer index. -/
def pyTake (xs : List Rat) (e : Int) : List Rat :=
  if 0 ≤ e then xs.take e.toNat else xs.take (xs.length - (-e).toNat)

/-- Python slice `xs[e:]` with a possibly negative integer index. -/
def pyDrop (xs : List Rat) (e : Int) : List Rat :=
  if 0 ≤ e then xs.drop e.toNat else xs.drop (xs.length - (-e).toNat)

/-- A Python number used as a slice index: usable only when it is an
integer (a float index raises `TypeError`). -/
def pyIndex (e : Rat) : Option Int :=
  if e.den = 1 then some e.num else none

/-- `np.reshape` of a flat array `xs` to shape `[w, 1]`: succeeds iff
the length equals `w` when `w ≥ 0`; `w = -1` is the inferred
dimension of numpy and always succeeds; any other negative dimension fails. -/
def reshape (w : Int) (xs : List Rat) : Except T2VError (List (List Rat)) :=
  if 0 ≤ w then
    if (xs.length : Int) = w then .ok (xs.map fun x => [x]) else .error .shape
  else if w = -1 then .ok (xs.map fun x => [x])
  else .error .shape

/-- A list comprehension over a fallible function: stops at the first
raised exception. -/
def mapExcept (f : α → Except T2VError β) : List α → Except T2VError (List β)
  | [] => .ok []
  | x :: xs =>
    match f x with
    | .error e => .error e
    | .ok y =>
      match mapExcept f xs with
      | .error e => .error e
      | .ok ys => .ok (y :: ys)

/-- `T2VPreprocessing._reshaping`: reshape each retained sequence to
`[window, 1]`. -/
def T2VPreprocessing.reshaping (w : Int) (sequence : List (List Rat)) :
    Except T2VError (List (List (List Rat))) :=
  mapExcept (reshape w) sequence

/-- `T2VPreprocessing.__init__`: stores the inputs and derives
`output_size = np.max(label) + 1` when a label list is provided and the
mode is classification, `param.training_output_size` otherwise.
`np.max` of an empty label list raises. -/
def T2VPreprocessing.init (param : T2VParam) (data : List TimeSeriesData)
    (label : Option (List Label)) (dummy_label : Bool) :
    Except T2VError T2VPreprocessing :=
  if label.isSome ∧ param.mode = "classification" then
    match npMax ((label.getD []).map Label.val) with
    | none => .error .numpyEmptyMax
    | some m =>
      .ok ⟨data, param, dummy_label, label, param.mode, m + 1, none⟩
  else
    .ok ⟨data, param, dummy_label, label, param.mode,
      (param.training_output_size : Rat), none⟩

/-- The sanity check at the top of `transform`: in classification mode
without dummy labels, labels must be present and each must be an
integer.  Returns the raised error, if any. -/
def classificationLabelCheck (self : T2VPreprocessing) : Option T2VError :=
  if self.mode = "classification" ∧ self.dummy_label = false then
    match self.label with
    | none => some (.validation msgNoLabel)
    | some ls =>
      if ls.all Label.isInt then none
      else some (.validation msgFloatLabel)
  else none

/-- `end` as computed by `transform`: the length of the first series,
reduced by `output_size` when labels are absent and dummy mode is off. -/
def T2VPreprocessing.endOf (self : T2VPreprocessing) : Rat :=
  (self.data.headI.value.length : Rat) -
    (if self.label = none ∧ self.dummy_label = false then self.output_size
     else 0)

/-- The `seq` list built by `transform`: the first `e` values of each
series, passed through the normalizer when one is configured. -/
def T2VPreprocessing.builtSeq (self : T2VPreprocessing) (e : Int) :
    List (List Rat) :=
  match self.param.normalizer with
  | some f => self.data.map fun ts => f (pyTake ts.value e)
  | none => self.data.map fun ts => pyTake ts.value e

/-- The `label` list built by `transform`: the provided labels if
present, else the tail slices of the raw series; in dummy mode one
placeholder `-1` per series. -/
def T2VPreprocessing.builtLabel (self : T2VPreprocessing) (e : Int) :
    List OutLabel :=
  if self.dummy_label = false then
    match self.label with
    | some ls => ls.map OutLabel.scalar
    | none => self.data.map fun ts => OutLabel.series (pyDrop ts.value e)
  else self.data.map fun _ => OutLabel.scalar (Label.lint (-1))

/-- `T2VPreprocessing.transform`.  Returns the produced record together
with the mutated instance (whose `window` attribute has been set). -/
def T2VPreprocessing.transform (self : T2VPreprocessing) :
    Except T2VError (T2VPreprocessed × T2VPreprocessing) :=
  match classificationLabelCheck self with
  | some err => .error err
  | none =>
    if self.data.isEmpty then .error .indexError
    else
      match pyIndex self.endOf with
      | none => .error .typeError
      | some e =>
        if (self.builtLabel e).length ≠ (self.builtSeq e).length then
          .error (.validation msgMismatch)
        else
          match T2VPreprocessing.reshaping e (self.builtSeq e) with
          | .error er => .error er
          | .ok rs =>
            .ok ({ seq := rs, label := self.builtLabel e,
                   output_size := self.output_size,
                   window := self.endOf, batched := false },
                 { self with window := some self.endOf })

/-- Apply an optional normalizer, identity when absent (used only to
state theorems uniformly over the two `seq` comprehensions). -/
def normApply (n : Option (List Rat → List Rat)) (xs : List Rat) : List Rat :=
  match n with
  | some f => f xs
  | none => xs

/-- A normalizer respecting the collaborator contract: it preserves the
length of its input sequence. -/
def PreservesLength (n : Option (List Rat → List Rat)) : Prop :=
  ∀ f, n = some f → ∀ xs, (f xs).length = xs.length

/-! ### Concrete fixtures used by witnesses and counterexamples -/

def pRegA : T2VParam := ⟨"regression", none, 2⟩

def dataA : List TimeSeriesData :=
  [⟨[0, 1, 2, 3, 4, 5, 6, 7, 8, 9]⟩,
   ⟨[10, 11, 12, 13, 14, 15, 16, 17, 18, 19]⟩,
   ⟨[20, 21, 22, 23, 24, 25, 26, 27, 28, 29]⟩]

def stA : T2VPreprocessing := ⟨dataA, pRegA, false, none, "regression", 2, none⟩

def pCls1 : T2VParam := ⟨"classification", none, 1⟩

def dataC2x : List TimeSeriesData := [⟨[1]⟩, ⟨[2]⟩]

def stC2x : T2VPreprocessing :=
  ⟨dataC2x, pCls1, false, some [Label.lint 0], "classification", 1, none⟩

def stC2w : T2VPreprocessing :=
  ⟨[⟨[1]⟩], pCls1, false, none, "classification", 1, none⟩

def pCls7 : T2VParam := ⟨"classification", none, 7⟩

def dataB : List TimeSeriesData := [⟨[1, 2, 3, 4, 5]⟩, ⟨[6, 7, 8, 9, 10]⟩]

def stB : T2VPreprocessing :=
  ⟨dataB, pCls7, false, some [Label.lint 0, Label.lint 2], "classification", 3, none⟩

def stC4w : T2VPreprocessing :=
  ⟨[⟨[1, 2]⟩, ⟨[3, 4]⟩], pRegA, true, some [Label.lfloat (3 / 2)], "regression", 2, none⟩

def stC5x : T2VPreprocessing :=
  ⟨[], pRegA, false, some [Label.lint 0], "regression", 2, none⟩

def stC5w : T2VPreprocessing :=
  ⟨[⟨[1]⟩, ⟨[2]⟩], pRegA, false, some [Label.lint 0], "regression", 2, none⟩

def pReg1 : T2VParam := ⟨"regression", none, 1⟩

def stC7w : T2VPreprocessing :=
  ⟨[⟨[1, 2, 3]⟩, ⟨[4]⟩], pReg1, false, some [Label.lint 0, Label.lint 1],
    "regression", 1, none⟩

def stC8w : T2VPreprocessing :=
  ⟨[⟨[1, 2, 3]⟩], pReg1, false, none, "regression", 1, none⟩

def rC8 : T2VPreprocessed := ⟨[[[1], [2]]], [OutLabel.series [3]], 1, 2, false⟩

def stC8w2 : T2VPreprocessing :=
  ⟨[⟨[1, 2, 3]⟩], pReg1, false, none, "regression", 1, some 2⟩

def pNorm : T2VParam := ⟨"regression", some (fun xs => xs.map fun x => x * 2), 1⟩

def stC9w : T2VPreprocessing := ⟨[⟨[1, 2, 3]⟩], pNorm, false, none, "regression", 1, none⟩

def stC10x : T2VPreprocessing :=
  ⟨[⟨[1, 2]⟩], pRegA, true, some [Label.lfloat (3 / 2)], "regression", 2, none⟩

def rC10x : T2VPreprocessed :=
  ⟨[[[1], [2]]], [OutLabel.scalar (Label.lint (-1))], 2, 2, false⟩

def stC10w : T2VPreprocessing :=
  ⟨[⟨[1, 2]⟩, ⟨[3, 4]⟩], pRegA, false, some [Label.lfloat (3 / 2), Label.lint 7],
    "regression", 2, none⟩

/-! ### Helper lemmas -/

theorem pyTake_eq_take (xs : List Rat) (e : Int) (h : 0 ≤ e) :
    pyTake xs e = xs.take e.toNat := by
  simp [pyTake, h]

theorem pyDrop_eq_drop (xs : List Rat) (e : Int) (h : 0 ≤ e) :
    pyDrop xs e = xs.drop e.toNat := by
  simp [pyDrop, h]

theorem length_pyTake (xs : List Rat) (e : Int) (h : 0 ≤ e)
    (hle : e.toNat ≤ xs.length) : (pyTake xs e).length = e.toNat := by
  rw [pyTake_eq_take xs e h, List.length_take]
  exact Nat.min_eq_left hle

theorem pyIndex_intCast (n : Int) : pyIndex ((n : Rat)) = some n := by
  simp [pyIndex]

theorem pyIndex_natCast (n : Nat) : pyIndex ((n : Rat)) = some (n : Int) := by
  have : ((n : Int) : Rat) = (n : Rat) := by push_cast; ring
  rw [← this, pyIndex_intCast]

theorem reshape_ok (e : Int) (xs : List Rat) (h0 : 0 ≤ e)
    (hlen : (xs.length : Int) = e) :
    reshape e xs = .ok (xs.map fun x => [x]) := by
  simp [reshape, h0, hlen]

theorem reshape_err (e : Int) (xs : List Rat) (h0 : 0 ≤ e)
    (hlen : (xs.length : Int) ≠ e) :
    reshape e xs = .error .shape := by
  simp [reshape, h0, hlen]

theorem reshaping_ok (e : Int) (l : List (List Rat)) (h0 : 0 ≤ e)
    (h : ∀ s ∈ l, (s.length : Int) = e) :
    T2VPreprocessing.reshaping e l = .ok (l.map fun s => s.map fun x => [x]) := by
  induction l with
  | nil => rfl
  | cons s tl ih =>
    have hs : (s.length : Int) = e := h s (List.mem_cons_self s tl)
    have htl := ih fun x hx => h x (List.mem_cons_of_mem s hx)
    simp only [T2VPreprocessing.reshaping, mapExcept,
      reshape_ok e s h0 hs] at htl ⊢
    rw [htl]
    rfl

theorem reshape_error (e : Int) (xs : List Rat) (er : T2VError)
    (h : reshape e xs = .error er) : er = .shape := by
  unfold reshape at h
  split at h
  · split at h
    · exact absurd h (by simp)
    · cases h
      rfl
  · split at h
    · exact absurd h (by simp)
    · cases h
      rfl

theorem reshape_error_length (e : Int) (xs : List Rat) (er : T2VError)
    (h0 : 0 ≤ e) (h : reshape e xs = .error er) : (xs.length : Int) ≠ e := by
  intro hlen
  rw [reshape_ok e xs h0 hlen] at h
  exact absurd h (by simp)

theorem mapExcept_error_mem (f : α → Except T2VError β) (l : List α)
    (er : T2VError) (h : mapExcept f l = .error er) :
    ∃ x ∈ l, f x = .error er := by
  induction l with
  | nil => simp [mapExcept] at h
  | cons a tl ih =>
    unfold mapExcept at h
    split at h
    · next heq =>
      cases h
      exact ⟨a, List.mem_cons_self a tl, heq⟩
    · next y heq =>
      split at h
      · next heq2 =>
        cases h
        rcases ih heq2 with ⟨x, hx, hfx⟩
        exact ⟨x, List.mem_cons_of_mem a hx, hfx⟩
      · exact absurd h (by simp)

theorem mapExcept_ok_mem (f : α → Except T2VError β) (l : List α)
    (ys : List β) (h : mapExcept f l = .ok ys) :
    ∀ x ∈ l, ∃ y, f x = .ok y := by
  induction l generalizing ys with
  | nil => simp
  | cons a tl ih =>
    unfold mapExcept at h
    split at h
    · exact absurd h (by simp)
    · next y heq =>
      split at h
      · exact absurd h (by simp)
      · next ys2 heq2 =>
        intro x hx
        rcases List.mem_cons.mp hx with rfl | hx2
        · exact ⟨y, heq⟩
        · exact ih ys2 heq2 x hx2

theorem reshaping_error_shape (e : Int) (l : List (List Rat)) (er : T2VError)
    (h : T2VPreprocessing.reshaping e l = .error er) : er = .shape := by
  rcases mapExcept_error_mem (reshape e) l er h with ⟨x, _, hx⟩
  exact reshape_error e x er hx

theorem reshaping_error_iff (e : Int) (l : List (List Rat)) (h0 : 0 ≤ e) :
    (∃ er, T2VPreprocessing.reshaping e l = .error er) ↔
      ∃ s ∈ l, (s.length : Int) ≠ e := by
  constructor
  · rintro ⟨er, her⟩
    rcases mapExcept_error_mem (reshape e) l er her with ⟨s, hs, hfs⟩
    exact ⟨s, hs, reshape_error_length e s er h0 hfs⟩
  · rintro ⟨s, hs, hne⟩
    cases hr : T2VPreprocessing.reshaping e l with
    | error er => exact ⟨er, rfl⟩
    | ok ys =>
      rcases mapExcept_ok_mem (reshape e) l ys hr s hs with ⟨y, hy⟩
      rw [reshape_err e s h0 hne] at hy
      exact absurd hy (by simp)

theorem builtSeq_eq_normApply (st : T2VPreprocessing) (e : Int) :
    st.builtSeq e =
      st.data.map fun ts => normApply st.param.normalizer (pyTake ts.value e) := by
  unfold T2VPreprocessing.builtSeq normApply
  cases st.param.normalizer <;> simp

theorem builtSeq_length (st : T2VPreprocessing) (e : Int) :
    (st.builtSeq e).length = st.data.length := by
  rw [builtSeq_eq_normApply, List.length_map]

theorem endOf_of_label_some (st : T2VPreprocessing) (l : List Label)
    (hl : st.label = some l) :
    st.endOf = (st.data.headI.value.length : Rat) := by
  simp [T2VPreprocessing.endOf, hl]

theorem endOf_of_dummy (st : T2VPreprocessing) (hd : st.dummy_label = true) :
    st.endOf = (st.data.headI.value.length : Rat) := by
  simp [T2VPreprocessing.endOf, hd]

theorem endOf_of_unlabeled (st : T2VPreprocessing) (hl : st.label = none)
    (hd : st.dummy_label = false) :
    st.endOf = (st.data.headI.value.length : Rat) - st.output_size := by
  simp [T2VPreprocessing.endOf, hl, hd]

/-- Master success lemma for `transform`: when the sanity check passes,
the data is nonempty, `end` is a usable integer index, the label and
sequence counts agree and every retained sequence has length `e`, the
transform succeeds and its output is given by `builtSeq`, `builtLabel`,
`output_size` and `endOf`, and the `window` attribute of the instance is set. -/
theorem transform_spec (st : T2VPreprocessing) (e : Int)
    (hchk : classificationLabelCheck st = none)
    (hd : st.data.isEmpty = false)
    (he : pyIndex st.endOf = some e)
    (hlen : (st.builtLabel e).length = (st.builtSeq e).length)
    (h0 : 0 ≤ e)
    (hsh : ∀ s ∈ st.builtSeq e, (s.length : Int) = e) :
    st.transform =
      .ok ({ seq := (st.builtSeq e).map fun s => s.map fun x => [x],
             label := st.builtLabel e,
             output_size := st.output_size,
             window := st.endOf,
             batched := false },
           { st with window := some st.endOf }) := by
  unfold T2VPreprocessing.transform
  rw [hchk, hd, he]
  simp only [Bool.false_eq_true, if_false, hlen, ne_eq, not_true_eq_false,
    reshaping_ok e (st.builtSeq e) h0 hsh]

/-- The result state of a successful `transform` is the input instance
with its `window` attribute assigned, and the produced record is not
batched. -/
theorem transform_ok_inv (st st2 : T2VPreprocessing) (r : T2VPreprocessed)
    (h : st.transform = .ok (r, st2)) :
    st2 = { st with window := some st.endOf } ∧ r.batched = false := by
  unfold T2VPreprocessing.transform at h
  split at h
  · exact absurd h (by simp)
  · split at h
    · exact absurd h (by simp)
    · split at h
      · exact absurd h (by simp)
      · split at h
        · exact absurd h (by simp)
        · split at h
          · exact absurd h (by simp)
          · rw [Except.ok.injEq, Prod.mk.injEq] at h
            exact ⟨h.2.symm, by rw [← h.1]⟩

/-- `transform` never reads the `window` attribute, so its behavior is
independent of the prior value of that attribute. -/
theorem transform_window_irrel (st : T2VPreprocessing) (w : Option Rat) :
    T2VPreprocessing.transform { st with window := w } = st.transform := rfl

theorem normApply_length (n : Option (List Rat → List Rat)) (xs : List Rat)
    (hpres : PreservesLength n) : (normApply n xs).length = xs.length := by
  cases n with
  | none => rfl
  | some f => exact hpres f rfl xs

theorem builtSeq_lengths (st : T2VPreprocessing) (e : Int) (h0 : 0 ≤ e)
    (hle : ∀ ts ∈ st.data, e.toNat ≤ ts.value.length)
    (hpres : PreservesLength st.param.normalizer) :
    ∀ s ∈ st.builtSeq e, (s.length : Int) = e := by
  rw [builtSeq_eq_normApply]
  intro s hs
  rcases List.mem_map.mp hs with ⟨ts, hts, rfl⟩
  rw [normApply_length _ _ hpres, length_pyTake _ _ h0 (hle ts hts),
    Int.toNat_of_nonneg h0]

theorem check_none_of_mode (st : T2VPreprocessing)
    (hm : st.mode ≠ "classification") : classificationLabelCheck st = none := by
  simp [classificationLabelCheck, hm]

theorem check_none_of_dummy (st : T2VPreprocessing)
    (hd : st.dummy_label = true) : classificationLabelCheck st = none := by
  simp [classificationLabelCheck, hd]

theorem check_none_of_int_labels (st : T2VPreprocessing) (l : List Label)
    (hl : st.label = some l) (hall : l.all Label.isInt = true) :
    classificationLabelCheck st = none := by
  unfold classificationLabelCheck
  split
  · rw [hl]
    simp [hall]
  · rfl

theorem isEmpty_false_of_ne_nil {l : List TimeSeriesData} (h : l ≠ []) :
    l.isEmpty = false := by
  cases l with
  | nil => exact absurd rfl h
  | cons a tl => rfl

theorem init_unlabeled (p : T2VParam) (data : List TimeSeriesData)
    (dm : Bool) :
    T2VPreprocessing.init p data none dm =
      .ok ⟨data, p, dm, none, p.mode, (p.training_output_size : Rat), none⟩ := by
  simp [T2VPreprocessing.init]

/-! ### Claim C1 -/

/-- C1: with mode `"regression"`, no labels and dummy flag false (and
well-formed inputs: a nonempty list of equal-length series, an output
size not exceeding the series length, and a length-preserving
normalizer), `transform` returns a record whose `window` is the first
length of the first series minus `output_size`, whose `seq[i]` is the first
`window` values of series `i` (normalized when a normalizer is
configured) reshaped to `[window, 1]`, and whose `label[i]` is the
trailing slice of series `i` after position `window`. -/
theorem c1_regression_unlabeled (p : T2VParam) (data : List TimeSeriesData)
    (st : T2VPreprocessing) (k : Nat)
    (hm : p.mode = "regression")
    (hinit : T2VPreprocessing.init p data none false = .ok st)
    (hne : data ≠ [])
    (heq : ∀ ts ∈ data, ts.value.length = data.headI.value.length)
    (htos : p.training_output_size = (k : Int))
    (hk : k ≤ data.headI.value.length)
    (hpres : PreservesLength p.normalizer) :
    st.transform =
      .ok ({ seq := data.map fun ts =>
               (normApply p.normalizer
                 (ts.value.take (data.headI.value.length - k))).map fun x => [x],
             label := data.map fun ts =>
               OutLabel.series (ts.value.drop (data.headI.value.length - k)),
             output_size := (k : Rat),
             window := ((data.headI.value.length - k : Nat) : Rat),
             batched := false },
           { st with window := some ((data.headI.value.length - k : Nat) : Rat) }) := by
  rw [init_unlabeled] at hinit
  have hst : st = ⟨data, p, false, none, p.mode, (p.training_output_size : Rat), none⟩ :=
    (Except.ok.injEq _ _).mp hinit.symm
  subst hst
  set n := data.headI.value.length with hn
  have hend : T2VPreprocessing.endOf
      ⟨data, p, false, none, p.mode, (p.training_output_size : Rat), none⟩ =
      ((n - k : Nat) : Rat) := by
    rw [endOf_of_unlabeled _ rfl rfl]
    show (n : Rat) - (p.training_output_size : Rat) = ((n - k : Nat) : Rat)
    rw [htos, Nat.cast_sub hk]
    push_cast
    ring
  have he : pyIndex (T2VPreprocessing.endOf
      ⟨data, p, false, none, p.mode, (p.training_output_size : Rat), none⟩) =
      some ((n - k : Nat) : Int) := by
    rw [hend, pyIndex_natCast]
  have h0 : (0 : Int) ≤ ((n - k : Nat) : Int) := Int.natCast_nonneg _
  have htn : ((n - k : Nat) : Int).toNat = n - k := Int.toNat_natCast _
  have hsh := builtSeq_lengths
    ⟨data, p, false, none, p.mode, (p.training_output_size : Rat), none⟩
    ((n - k : Nat) : Int) h0
    (by
      intro ts hts
      rw [htn, heq ts hts]
      exact Nat.sub_le n k)
    hpres
  have hlab : T2VPreprocessing.builtLabel
      ⟨data, p, false, none, p.mode, (p.training_output_size : Rat), none⟩
      ((n - k : Nat) : Int) =
      data.map fun ts => OutLabel.series (ts.value.drop (n - k)) := by
    unfold T2VPreprocessing.builtLabel
    simp only [if_pos rfl]
    show (data.map fun ts => OutLabel.series (pyDrop ts.value _)) = _
    refine List.map_congr_left fun ts _ => ?_
    rw [pyDrop_eq_drop _ _ h0, htn]
  have hseq : T2VPreprocessing.builtSeq
      ⟨data, p, false, none, p.mode, (p.training_output_size : Rat), none⟩
      ((n - k : Nat) : Int) =
      data.map fun ts => normApply p.normalizer (ts.value.take (n - k)) := by
    rw [builtSeq_eq_normApply]
    refine List.map_congr_left fun ts _ => ?_
    show normApply p.normalizer (pyTake ts.value _) = _
    rw [pyTake_eq_take _ _ h0, htn]
  rw [transform_spec _ ((n - k : Nat) : Int)
    (check_none_of_mode _ (by simp [hm]))
    (isEmpty_false_of_ne_nil hne) he
    (by rw [hlab, builtSeq_length, List.length_map]) h0 hsh]
  rw [hseq, hlab, hend]
  simp only [List.map_map, htos]
  rfl

/-! ### Claim C3 -/

/-- C3: for every successful construction, the stored `output_size`
equals `max(labels) + 1` when a label list is provided and the mode is
`"classification"`, and equals the configured `training_output_size` in
every other case (labels absent, or mode not `"classification"`). -/
theorem c3_output_size (p : T2VParam) (data : List TimeSeriesData)
    (lab : Option (List Label)) (dm : Bool) (st : T2VPreprocessing)
    (hinit : T2VPreprocessing.init p data lab dm = .ok st) :
    (∀ l, lab = some l → p.mode = "classification" →
      ∃ m, npMax (l.map Label.val) = some m ∧ st.output_size = m + 1) ∧
    ((lab = none ∨ p.mode ≠ "classification") →
      st.output_size = (p.training_output_size : Rat)) := by
  unfold T2VPreprocessing.init at hinit
  split at hinit
  · next hcond =>
    split at hinit
    · exact absurd hinit (by simp)
    · next m heq =>
      rw [Except.ok.injEq] at hinit
      subst hinit
      constructor
      · intro l hl _
        rw [hl] at heq
        exact ⟨m, by simpa using heq, rfl⟩
      · intro h
        rcases h with h | h
        · rw [h] at hcond
          exact absurd hcond.1 (by simp)
        · exact absurd hcond.2 h
  · next hcond =>
    rw [Except.ok.injEq] at hinit
    subst hinit
    refine ⟨fun l hl hm => absurd ⟨by rw [hl]; rfl, hm⟩ hcond, fun _ => rfl⟩

/-! ### Claim C6 -/

/-- C6 counterexample: constructing a preprocessor with
mode `"classification"` and an empty (but provided) label list fails at
construction time (`np.max` of an empty sequence raises), so
construction is not failure-free for every combination of inputs. -/
theorem c6_counterexample :
    T2VPreprocessing.init ⟨"classification", none, 1⟩ [⟨[1]⟩]
      (some []) false = .error .numpyEmptyMax := rfl

/-- C6 (amended): construction stores all inputs verbatim and performs
no validation; it never fails except in the single case where the mode
is `"classification"` and the provided label list is empty, where
taking the maximum of the labels fails. -/
theorem c6_construction (p : T2VParam) (data : List TimeSeriesData)
    (lab : Option (List Label)) (dm : Bool) :
    ((∃ st, T2VPreprocessing.init p data lab dm = .ok st) ↔
      ¬(p.mode = "classification" ∧ lab = some ([] : List Label))) ∧
    (∀ st, T2VPreprocessing.init p data lab dm = .ok st →
      st.data = data ∧ st.param = p ∧ st.label = lab ∧
      st.dummy_label = dm ∧ st.mode = p.mode) := by
  constructor
  · unfold T2VPreprocessing.init
    split
    · next hcond =>
      rcases Option.isSome_iff_exists.mp hcond.1 with ⟨l, hl⟩
      subst hl
      cases l with
      | nil =>
        simp only [Option.getD_some, List.map_nil, npMax]
        exact ⟨fun ⟨st, hst⟩ => absurd hst (by simp),
          fun h => absurd ⟨hcond.2, by trivial⟩ h⟩
      | cons a tl =>
        simp only [Option.getD_some, List.map_cons, npMax]
        exact ⟨fun _ => by simp, fun _ => ⟨_, rfl⟩⟩
    · next hcond =>
      exact ⟨fun _ h => hcond ⟨by rw [h.2]; rfl, h.1⟩, fun _ => ⟨_, rfl⟩⟩
  · intro st hst
    unfold T2VPreprocessing.init at hst
    split at hst
    · split at hst
      · exact absurd hst (by simp)
      · rw [Except.ok.injEq] at hst
        subst hst
        exact ⟨rfl, rfl, rfl, rfl, rfl⟩
    · rw [Except.ok.injEq] at hst
      subst hst
      exact ⟨rfl, rfl, rfl, rfl, rfl⟩

theorem builtLabel_some (st : T2VPreprocessing) (l : List Label) (e : Int)
    (hdm : st.dummy_label = false) (hl : st.label = some l) :
    st.builtLabel e = l.map OutLabel.scalar := by
  simp [T2VPreprocessing.builtLabel, hdm, hl]

theorem builtLabel_dummy (st : T2VPreprocessing) (e : Int)
    (hdm : st.dummy_label = true) :
    st.builtLabel e = st.data.map fun _ => OutLabel.scalar (Label.lint (-1)) := by
  simp [T2VPreprocessing.builtLabel, hdm]

theorem builtLabel_derived (st : T2VPreprocessing) (e : Int)
    (hdm : st.dummy_label = false) (hl : st.label = none) :
    st.builtLabel e = st.data.map fun ts => OutLabel.series (pyDrop ts.value e) := by
  simp [T2VPreprocessing.builtLabel, hdm, hl]

theorem transform_check_error (st : T2VPreprocessing) (er : T2VError)
    (hchk : classificationLabelCheck st = some er) :
    st.transform = .error er := by
  unfold T2VPreprocessing.transform
  rw [hchk]

theorem check_some_of_no_label (st : T2VPreprocessing)
    (hm : st.mode = "classification") (hdm : st.dummy_label = false)
    (hl : st.label = none) :
    classificationLabelCheck st = some (.validation msgNoLabel) := by
  simp [classificationLabelCheck, hm, hdm, hl]

theorem check_some_of_float (st : T2VPreprocessing) (l : List Label)
    (hm : st.mode = "classification") (hdm : st.dummy_label = false)
    (hl : st.label = some l) (hnall : ¬ l.all Label.isInt = true) :
    classificationLabelCheck st = some (.validation msgFloatLabel) := by
  simp [classificationLabelCheck, hm, hdm, hl, hnall]

theorem transform_mismatch (st : T2VPreprocessing) (e : Int)
    (hchk : classificationLabelCheck st = none)
    (hd : st.data.isEmpty = false)
    (he : pyIndex st.endOf = some e)
    (hcnt : (st.builtLabel e).length ≠ (st.builtSeq e).length) :
    st.transform = .error (.validation msgMismatch) := by
  unfold T2VPreprocessing.transform
  rw [hchk, hd, he]
  simp [hcnt]

theorem pyIndex_endOf_labeled (st : T2VPreprocessing) (l : List Label)
    (hl : st.label = some l) :
    pyIndex st.endOf = some (st.data.headI.value.length : Int) := by
  rw [endOf_of_label_some st l hl, pyIndex_natCast]

/-! ### Claim C2 -/

/-- C2 counterexample: in classification mode with dummy flag false,
labels present and all of integer type, `transform` can still fail with
a `ValidationError` (label/series count mismatch), so "fails with a
ValidationError iff labels are absent or some label is non-integer" is
false as stated. -/
theorem c2_counterexample :
    stC2x.transform = .error (.validation msgMismatch) ∧
    [Label.lint 0].all Label.isInt = true := by
  constructor
  · with_unfolding_all rfl
  · rfl

/-- C2 (amended): with at least one input series, in classification
mode with dummy flag false, `transform` fails with a `ValidationError`
iff labels are absent, or some provided label is not of integer type,
or the provided label count differs from the series count; no output is
produced in those cases (the error is returned instead of a record). -/
theorem c2_classification_validation_iff (st : T2VPreprocessing)
    (hm : st.mode = "classification") (hdm : st.dummy_label = false)
    (hd : st.data ≠ []) :
    (∃ m, st.transform = .error (.validation m)) ↔
      (st.label = none ∨
       (∃ l, st.label = some l ∧ ¬ l.all Label.isInt = true) ∨
       (∃ l, st.label = some l ∧ l.length ≠ st.data.length)) := by
  constructor
  · rintro ⟨m, hms⟩
    cases hl : st.label with
    | none => exact Or.inl rfl
    | some l =>
      by_cases hall : l.all Label.isInt = true
      · by_cases hlen : l.length = st.data.length
        · exfalso
          have hchk := check_none_of_int_labels st l hl hall
          have he := pyIndex_endOf_labeled st l hl
          unfold T2VPreprocessing.transform at hms
          simp only [hchk, isEmpty_false_of_ne_nil hd, he, Bool.false_eq_true,
            if_false] at hms
          set e0 := (st.data.headI.value.length : Int) with he0
          rw [if_neg (by
            rw [builtLabel_some st l _ hdm hl, builtSeq_length,
              List.length_map]
            simpa using hlen)] at hms
          cases hres : T2VPreprocessing.reshaping e0 (st.builtSeq e0) with
          | error er =>
            rw [hres] at hms
            have : er = .shape := reshaping_error_shape e0 _ er hres
            rw [this] at hms
            exact absurd hms (by simp)
          | ok rs =>
            rw [hres] at hms
            exact absurd hms (by simp)
        · exact Or.inr (Or.inr ⟨l, rfl, hlen⟩)
      · exact Or.inr (Or.inl ⟨l, rfl, hall⟩)
  · rintro (hl | ⟨l, hl, hnall⟩ | ⟨l, hl, hlen⟩)
    · exact ⟨msgNoLabel, transform_check_error st _
        (check_some_of_no_label st hm hdm hl)⟩
    · exact ⟨msgFloatLabel, transform_check_error st _
        (check_some_of_float st l hm hdm hl hnall)⟩
    · by_cases hall : l.all Label.isInt = true
      · refine ⟨msgMismatch, transform_mismatch st
          (st.data.headI.value.length : Int)
          (check_none_of_int_labels st l hl hall)
          (isEmpty_false_of_ne_nil hd)
          (pyIndex_endOf_labeled st l hl) ?_⟩
        rw [builtLabel_some st l _ hdm hl, builtSeq_length, List.length_map]
        exact hlen
      · exact ⟨msgFloatLabel, transform_check_error st _
          (check_some_of_float st l hm hdm hl hall)⟩

theorem preservesLength_none : PreservesLength none :=
  fun f h => by simp at h

/-- C2 witness. -/
theorem c2_witness :
    stC2w.mode = "classification" ∧ stC2w.dummy_label = false ∧
    stC2w.data ≠ [] ∧ (∃ m, stC2w.transform = .error (.validation m)) :=
  ⟨rfl, rfl, by decide,
    (c2_classification_validation_iff stC2w rfl rfl (by decide)).mpr (Or.inl rfl)⟩

/-- C1 witness (Scenario A). -/
theorem c1_witness :
    stA.transform =
      .ok ({ seq := dataA.map fun ts =>
               (normApply pRegA.normalizer
                 (ts.value.take (dataA.headI.value.length - 2))).map fun x => [x],
             label := dataA.map fun ts =>
               OutLabel.series (ts.value.drop (dataA.headI.value.length - 2)),
             output_size := ((2 : Nat) : Rat),
             window := ((dataA.headI.value.length - 2 : Nat) : Rat),
             batched := false },
           { stA with window := some ((dataA.headI.value.length - 2 : Nat) : Rat) }) :=
  c1_regression_unlabeled pRegA dataA stA 2 rfl (by with_unfolding_all rfl)
    (by decide) (by decide) rfl (by decide) preservesLength_none

/-- C3 witness (Scenario B). -/
theorem c3_witness :
    T2VPreprocessing.init pCls7 dataB
      (some [Label.lint 0, Label.lint 2]) false = .ok stB ∧
    ∃ m, npMax ([Label.lint 0, Label.lint 2].map Label.val) = some m ∧
      stB.output_size = m + 1 := by
  have hinit : T2VPreprocessing.init pCls7 dataB
      (some [Label.lint 0, Label.lint 2]) false = .ok stB := by
    with_unfolding_all rfl
  exact ⟨hinit, (c3_output_size pCls7 dataB _ false stB hinit).1 _ rfl rfl⟩

/-- C6 witness. -/
theorem c6_witness :
    (∃ st, T2VPreprocessing.init pRegA [⟨[1]⟩] (some [Label.lint 0]) true = .ok st) ∧
    ∀ st, T2VPreprocessing.init pRegA [⟨[1]⟩] (some [Label.lint 0]) true = .ok st →
      st.label = some [Label.lint 0] := by
  have h := c6_construction pRegA [⟨[1]⟩] (some [Label.lint 0]) true
  exact ⟨h.1.mpr (by decide), fun st hst => (h.2 st hst).2.2.1⟩

/-! ### Claim C4 -/

/-- C4: with dummy flag true (and a nonempty list of equal-length
series with a length-preserving normalizer), `transform` succeeds and
produces one placeholder label `-1` per input series — regardless of
any provided labels — and `window` equals the full length of the first
series. -/
theorem c4_dummy_labels (st : T2VPreprocessing)
    (hdm : st.dummy_label = true)
    (hne : st.data ≠ [])
    (heq : ∀ ts ∈ st.data, ts.value.length = st.data.headI.value.length)
    (hpres : PreservesLength st.param.normalizer) :
    ∃ r st2, st.transform = .ok (r, st2) ∧
      r.label = st.data.map (fun _ => OutLabel.scalar (Label.lint (-1))) ∧
      r.window = (st.data.headI.value.length : Rat) := by
  set n := st.data.headI.value.length with hn
  have hend : st.endOf = (n : Rat) := endOf_of_dummy st hdm
  have he : pyIndex st.endOf = some (n : Int) := by rw [hend, pyIndex_natCast]
  have h0 : (0 : Int) ≤ (n : Int) := Int.natCast_nonneg n
  have hsh := builtSeq_lengths st (n : Int) h0
    (fun ts hts => by rw [Int.toNat_natCast, heq ts hts]) hpres
  have hbl := builtLabel_dummy st (n : Int) hdm
  have hlen : (st.builtLabel (n : Int)).length = (st.builtSeq (n : Int)).length := by
    rw [hbl, builtSeq_length, List.length_map]
  refine ⟨_, _, transform_spec st (n : Int) (check_none_of_dummy st hdm)
    (isEmpty_false_of_ne_nil hne) he hlen h0 hsh, ?_, ?_⟩
  · exact hbl
  · exact hend

/-- C4 witness (dummy flag set, float labels provided but ignored). -/
theorem c4_witness :
    ∃ r st2, stC4w.transform = .ok (r, st2) ∧
      r.label = stC4w.data.map (fun _ => OutLabel.scalar (Label.lint (-1))) ∧
      r.window = (stC4w.data.headI.value.length : Rat) :=
  c4_dummy_labels stC4w rfl (by decide) (by decide) preservesLength_none

/-! ### Claim C5 -/

theorem check_error_validation (st : T2VPreprocessing) (er : T2VError)
    (h : classificationLabelCheck st = some er) : ∃ m, er = .validation m := by
  unfold classificationLabelCheck at h
  split at h
  · split at h
    · rw [Option.some.injEq] at h
      exact ⟨msgNoLabel, h.symm⟩
    · split at h
      · exact absurd h (by simp)
      · rw [Option.some.injEq] at h
        exact ⟨msgFloatLabel, h.symm⟩
  · exact absurd h (by simp)

/-- C5 counterexample: with an empty data list and a provided
(non-dummy) one-element label list, the count mismatches (1 ≠ 0) but
`transform` raises an `IndexError` (from `self.data[0]`), not a
`ValidationError`. -/
theorem c5_counterexample :
    stC5x.transform = .error .indexError ∧
    stC5x.label = some [Label.lint 0] ∧ stC5x.data.length = 0 :=
  ⟨by with_unfolding_all rfl, rfl, rfl⟩

/-- C5 (amended): with at least one input series, whenever a non-dummy
length of the provided label list differs from the number of input series,
`transform` raises a `ValidationError` and produces no result. -/
theorem c5_count_mismatch (st : T2VPreprocessing) (l : List Label)
    (hne : st.data ≠ []) (hl : st.label = some l)
    (hdm : st.dummy_label = false)
    (hcnt : l.length ≠ st.data.length) :
    ∃ m, st.transform = .error (.validation m) := by
  cases hc : classificationLabelCheck st with
  | some er =>
    rcases check_error_validation st er hc with ⟨m, rfl⟩
    exact ⟨m, transform_check_error st _ hc⟩
  | none =>
    refine ⟨msgMismatch, transform_mismatch st
      (st.data.headI.value.length : Int) hc (isEmpty_false_of_ne_nil hne)
      (pyIndex_endOf_labeled st l hl) ?_⟩
    rw [builtLabel_some st l _ hdm hl, builtSeq_length, List.length_map]
    exact hcnt

/-- C5 witness. -/
theorem c5_witness : ∃ m, stC5w.transform = .error (.validation m) :=
  c5_count_mismatch stC5w [Label.lint 0] (by decide) rfl rfl (by decide)

/-! ### Claim C7 -/

/-- C7: the reshape step of `transform` (applied to the retained
sequences with the window `e` that `transform` derives) fails with a
`ShapeError` exactly when the retained length of some input series (its
values truncated to the first `e` positions) differs from the window;
and when every input series has the same length as the first (and the
window does not exceed it), the reshape error branch is unreachable and
every element of the reshaped `seq` has shape `[window, 1]`.  The
normalizer is assumed length-preserving, per its contract. -/
theorem c7_reshape_iff (st : T2VPreprocessing) (e : Int) (h0 : 0 ≤ e)
    (he : pyIndex st.endOf = some e)
    (hpres : PreservesLength st.param.normalizer) :
    ((∃ er, T2VPreprocessing.reshaping e (st.builtSeq e) = .error er) ↔
      ∃ ts ∈ st.data, ((pyTake ts.value e).length : Int) ≠ e) ∧
    ((∀ ts ∈ st.data, ts.value.length = st.data.headI.value.length) →
      e.toNat ≤ st.data.headI.value.length →
      T2VPreprocessing.reshaping e (st.builtSeq e) =
        .ok ((st.builtSeq e).map fun s => s.map fun x => [x]) ∧
      ∀ s ∈ (st.builtSeq e).map (fun s => s.map fun x => [x]),
        s.length = e.toNat ∧ ∀ v ∈ s, v.length = 1) := by
  constructor
  · constructor
    · intro h
      rw [reshaping_error_iff _ _ h0] at h
      rcases h with ⟨s, hs, hne⟩
      rw [builtSeq_eq_normApply] at hs
      rcases List.mem_map.mp hs with ⟨ts, hts, rfl⟩
      rw [normApply_length _ _ hpres] at hne
      exact ⟨ts, hts, hne⟩
    · rintro ⟨ts, hts, hne⟩
      rw [reshaping_error_iff _ _ h0]
      refine ⟨normApply st.param.normalizer (pyTake ts.value e), ?_, ?_⟩
      · rw [builtSeq_eq_normApply]
        exact List.mem_map_of_mem _ hts
      · rw [normApply_length _ _ hpres]
        exact hne
  · intro heq hle
    have hsh := builtSeq_lengths st e h0
      (fun ts hts => by rw [heq ts hts]; exact hle) hpres
    refine ⟨reshaping_ok e _ h0 hsh, ?_⟩
    intro s hs
    rcases List.mem_map.mp hs with ⟨s0, hs0, rfl⟩
    constructor
    · have := hsh s0 hs0
      rw [List.length_map]
      omega
    · rintro v hv
      rcases List.mem_map.mp hv with ⟨x, _, rfl⟩
      rfl

/-- C7 witness: with two series of unequal lengths, the retained length
of the short series differs from the window and the reshape step
raises. -/
theorem c7_witness :
    ∃ er, T2VPreprocessing.reshaping 3 (stC7w.builtSeq 3) = .error er :=
  (c7_reshape_iff stC7w 3 (by decide) (by with_unfolding_all rfl)
    preservesLength_none).1.mpr ⟨⟨[4]⟩, by decide, by decide⟩

/-! ### Claim C8 -/

/-- C8: `transform` mutates only the `window` attribute of the instance,
which it never reads, so calling `transform` again on the instance
returned by a successful call yields the identical record and state:
repeated calls on the same instance agree (the embedded normalizer is a
function, hence deterministic), and the record is not batched. -/
theorem c8_idempotent (st st2 : T2VPreprocessing) (r : T2VPreprocessed)
    (h : st.transform = .ok (r, st2)) :
    st2.transform = .ok (r, st2) ∧ r.batched = false := by
  rcases transform_ok_inv st st2 r h with ⟨hst2, hb⟩
  subst hst2
  rw [transform_window_irrel]
  exact ⟨h, hb⟩

/-- C8 witness. -/
theorem c8_witness :
    stC8w.transform = .ok (rC8, stC8w2) ∧
    stC8w2.transform = .ok (rC8, stC8w2) ∧ rC8.batched = false := by
  have h : stC8w.transform = .ok (rC8, stC8w2) := by with_unfolding_all rfl
  rcases c8_idempotent stC8w stC8w2 rC8 h with ⟨h2, hb⟩
  exact ⟨h, h2, hb⟩

/-! ### Claim C9 -/

/-- C9: with labels absent, dummy flag false and a normalizer
configured (in a non-classification mode, so that the label-derivation
step is reached, with inputs making the reshape succeed), the derived
labels are the tail slices of the raw, unnormalized series values,
while the normalizer is applied only to the first `e` values forming
`seq`. -/
theorem c9_raw_tails (st : T2VPreprocessing) (f : List Rat → List Rat) (e : Int)
    (hm : st.mode ≠ "classification")
    (hl : st.label = none) (hdm : st.dummy_label = false)
    (hn : st.param.normalizer = some f)
    (hne : st.data ≠ [])
    (he : pyIndex st.endOf = some e) (h0 : 0 ≤ e)
    (hsh : ∀ ts ∈ st.data, (f (pyTake ts.value e)).length = e.toNat) :
    st.transform = .ok
      ({ seq := st.data.map fun ts => (f (pyTake ts.value e)).map fun x => [x],
         label := st.data.map fun ts => OutLabel.series (pyDrop ts.value e),
         output_size := st.output_size,
         window := st.endOf,
         batched := false }, { st with window := some st.endOf }) := by
  have hbs : st.builtSeq e = st.data.map fun ts => f (pyTake ts.value e) := by
    unfold T2VPreprocessing.builtSeq
    rw [hn]
  have hbl := builtLabel_derived st e hdm hl
  have hsh2 : ∀ s ∈ st.builtSeq e, (s.length : Int) = e := by
    rw [hbs]
    rintro s hs
    rcases List.mem_map.mp hs with ⟨ts, hts, rfl⟩
    rw [hsh ts hts, Int.toNat_of_nonneg h0]
  have hlen : (st.builtLabel e).length = (st.builtSeq e).length := by
    rw [hbl, hbs, List.length_map, List.length_map]
  rw [transform_spec st e (check_none_of_mode st hm)
    (isEmpty_false_of_ne_nil hne) he hlen h0 hsh2, hbs, hbl, List.map_map]
  rfl

/-- C9 witness: a doubling normalizer is applied to the first two
values, while the returned label is the raw tail `[3]`. -/
theorem c9_witness :
    stC9w.transform = .ok
      ({ seq := stC9w.data.map fun ts =>
           ((fun xs : List Rat => xs.map fun x => x * 2) (pyTake ts.value 2)).map fun x => [x],
         label := stC9w.data.map fun ts => OutLabel.series (pyDrop ts.value 2),
         output_size := stC9w.output_size,
         window := stC9w.endOf,
         batched := false }, { stC9w with window := some stC9w.endOf }) :=
  c9_raw_tails stC9w (fun xs : List Rat => xs.map fun x => x * 2) 2 (by decide) rfl rfl rfl
    (by decide) (by with_unfolding_all rfl) (by decide) (by decide)

/-! ### Claim C10 -/

/-- C10 counterexample: with dummy flag true and mode not
classification, a provided float label is not returned unchanged — it
is replaced by the placeholder `-1` — refuting "provided labels of any
type are accepted and returned unchanged as long as the label count
equals the series count". -/
theorem c10_counterexample :
    stC10x.transform = .ok (rC10x, { stC10x with window := some 2 }) ∧
    rC10x.label ≠ [OutLabel.scalar (Label.lfloat (3 / 2))] :=
  ⟨by with_unfolding_all rfl, by decide⟩

/-- C10 (amended): neither the non-classification modes nor dummy mode
perform any label-type validation; with dummy flag false and mode not
`"classification"`, provided labels of any type (floats included) are
accepted and returned unchanged when the label count equals the series
count, while with dummy flag true provided labels are ignored and
replaced by `-1` placeholders (inputs are assumed nonempty with
equal-length series and a length-preserving normalizer, so that the
remaining steps succeed). -/
theorem c10_no_type_validation (st : T2VPreprocessing) (l : List Label)
    (hl : st.label = some l)
    (hne : st.data ≠ [])
    (heq : ∀ ts ∈ st.data, ts.value.length = st.data.headI.value.length)
    (hpres : PreservesLength st.param.normalizer) :
    (st.mode ≠ "classification" → st.dummy_label = false →
      l.length = st.data.length →
      ∃ r st2, st.transform = .ok (r, st2) ∧ r.label = l.map OutLabel.scalar) ∧
    (st.dummy_label = true →
      ∃ r st2, st.transform = .ok (r, st2) ∧
        r.label = st.data.map fun _ => OutLabel.scalar (Label.lint (-1))) := by
  set n := st.data.headI.value.length with hn
  have hend : st.endOf = (n : Rat) := endOf_of_label_some st l hl
  have he : pyIndex st.endOf = some (n : Int) := by rw [hend, pyIndex_natCast]
  have h0 : (0 : Int) ≤ (n : Int) := Int.natCast_nonneg n
  have hsh := builtSeq_lengths st (n : Int) h0
    (fun ts hts => by rw [Int.toNat_natCast, heq ts hts]) hpres
  constructor
  · intro hm hdm hcnt
    have hbl := builtLabel_some st l (n : Int) hdm hl
    have hlen : (st.builtLabel (n : Int)).length = (st.builtSeq (n : Int)).length := by
      rw [hbl, builtSeq_length, List.length_map, hcnt]
    exact ⟨_, _, transform_spec st (n : Int) (check_none_of_mode st hm)
      (isEmpty_false_of_ne_nil hne) he hlen h0 hsh, hbl⟩
  · intro hdm
    have hbl := builtLabel_dummy st (n : Int) hdm
    have hlen : (st.builtLabel (n : Int)).length = (st.builtSeq (n : Int)).length := by
      rw [hbl, builtSeq_length, List.length_map]
    exact ⟨_, _, transform_spec st (n : Int) (check_none_of_dummy st hdm)
      (isEmpty_false_of_ne_nil hne) he hlen h0 hsh, hbl⟩

/-- C10 witness: regression mode accepts a float label untouched. -/
theorem c10_witness :
    ∃ r st2, stC10w.transform = .ok (r, st2) ∧
      r.label = [Label.lfloat (3 / 2), Label.lint 7].map OutLabel.scalar :=
  (c10_no_type_validation stC10w [Label.lfloat (3 / 2), Label.lint 7] rfl
    (by decide) (by decide) preservesLength_none).1 (by decide) rfl (by decide)
